import Mathlib

/-!
Verification of the `now list` subcommand
(`src/providers/sh/commands/list.js` of the now-cli repository).

The file shallowly embeds the command: the data model, the three-tier
resolver, the aggregation step (instance expansion and grouping), and the
presenter metrics the specification talks about (summary count, expansion
hint, group headers, shared URL column width).  Network collaborators are a
record of response functions (`Env`); a `Promise` rejection is `Except.error`
and a JavaScript `null`/`undefined` value is `none`.  Every call the command
issues to the network client is recorded in an explicit trace so that
ordering and call-count properties can be stated.
-/

set_option autoImplicit false

namespace NowLs

/-- Modelled from the spec: a transport/authentication failure raised by one
of the listing collaborators (spec section 6).  The command never inspects a
failure beyond reporting it, so it is an opaque code here. -/
structure TransportError where
  code : Nat
deriving DecidableEq

/-- The optional `scale` record of a deployment; `scale.current` is the live
instance count. -/
structure Scale where
  current : Nat
deriving DecidableEq

/-- A running replica of a deployment; the command only uses its `url`. -/
structure Instance where
  url : String
deriving DecidableEq

/-- A deployment record as consumed by `list.js`.  `state`, `created` and
`scale` may be absent (`none` models JavaScript `null`/`undefined`);
`instances` is populated only by the expansion step of the aggregator. -/
structure Deployment where
  uid : String
  name : String
  url : String
  state : Option String := none
  created : Option Nat := none
  scale : Option Scale := none
  instances : Option (List Instance) := none
deriving DecidableEq

/-- An alias-table record.  The source field `alias` is a reserved word in
Lean, so it is named `aliasField` here. -/
structure AliasRec where
  uid : String
  aliasField : String
  deploymentId : String
deriving DecidableEq

/-- One call to the `Now` network client, recorded in the order the command
issues them: `now.list app`, `now.findDeployment arg`, `now.listAliases()`,
`now.listInstances uid`. -/
inductive NowCall where
  | listCall (app : Option String)
  | findCall (arg : Option String)
  | aliasesCall
  | instancesCall (uid : String)
deriving DecidableEq

/-- The external collaborators of one invocation, at their interface
boundary.  `listResult`, `findResult`, `aliasesResult` and `instancesResult`
are the responses of the `Now` client; `Except.error` models a rejected
promise and `none` inside `ok` models a `null`/`undefined` response body.

`sortGroups` — Modelled from the spec: the `sort-deployments` utility is
repository code not present under `src/`; the spec (sections 4.2 and 6)
specifies it by contract only, as an externally supplied deterministic
total-order sort of the group list.  It is therefore an arbitrary function
bundled with the part of the contract the theorems need: it returns a
permutation of its input and does not touch the members of any group
(`sortGroups_perm`). -/
structure Env where
  listResult : Option String → Except TransportError (Option (List Deployment))
  findResult : Option String → Except TransportError (Option Deployment)
  aliasesResult : Except TransportError (List AliasRec)
  instancesResult : String → Except TransportError (List Instance)
  sortGroups : List (String × List Deployment) → List (String × List Deployment)
  sortGroups_perm : ∀ gs, (sortGroups gs).Perm gs

/-- JavaScript falsiness of the positional `app` argument in `argv.all &&
!app`: `undefined` (no argument) and the empty string are falsy. -/
def appFalsy : Option String → Bool
  | none => true
  | some s => s == ""

/-- The fall-through test of lines 119 and 127 of `list.js`:
`!deployments || (Array.isArray(deployments) && deployments.length <= 0)`. -/
def isEmptyDeployments : Option (List Deployment) → Bool
  | none => true
  | some ds => decide (ds.length ≤ 0)

/-- The alias-scan predicate of line 129:
`e.uid === app || e.alias === app` (strict equality against the possibly
undefined `app`). -/
def aliasMatches (app : Option String) (a : AliasRec) : Bool :=
  app == some a.uid || app == some a.aliasField

/-- How a failed resolution terminates the process.  A rejection of
`now.list` is caught at its call site (lines 112-117: `handleError` then
`process.exit(1)`); a rejection of `now.findDeployment` or
`now.listAliases` escapes `list` and is caught by `main` (lines 84-89:
an `Unknown error` diagnostic then `process.exit(1)`).  Both paths exit with
a non-zero status. -/
inductive ResolveFailure where
  | tier1 (e : TransportError)
  | escaped (e : TransportError)
deriving DecidableEq

/-- The three-tier resolution of lines 110-138 of `list.js`, returning the
resolved value of the `deployments` variable together with the trace of
network calls issued.  Tier 1 is `now.list app`; if the result is empty
(`isEmptyDeployments`), tier 2 tries `now.findDeployment app`; if the result
is still empty, tier 3 fetches the alias table, scans it with
`aliasMatches`, and on a hit looks up the matched entry's `deploymentId`. -/
def resolveDeployments (env : Env) (app : Option String) :
    Except ResolveFailure (Option (List Deployment)) × List NowCall :=
  match env.listResult app with
  | .error e => (.error (.tier1 e), [NowCall.listCall app])
  | .ok ds0 =>
    if isEmptyDeployments ds0 then
      match env.findResult app with
      | .error e =>
        (.error (.escaped e), [NowCall.listCall app, NowCall.findCall app])
      | .ok m =>
        -- `deployments = Array.of(match)` only when the match is non-null
        let ds1 : Option (List Deployment) :=
          match m with
          | some d => some [d]
          | none => ds0
        if isEmptyDeployments ds1 then
          match env.aliasesResult with
          | .error e =>
            (.error (.escaped e),
              [NowCall.listCall app, NowCall.findCall app, NowCall.aliasesCall])
          | .ok aliasTable =>
            match aliasTable.find? (aliasMatches app) with
            | some item =>
              match env.findResult (some item.deploymentId) with
              | .error e =>
                (.error (.escaped e),
                  [NowCall.listCall app, NowCall.findCall app,
                    NowCall.aliasesCall, NowCall.findCall (some item.deploymentId)])
              | .ok m2 =>
                let ds2 : Option (List Deployment) :=
                  match m2 with
                  | some d => some [d]
                  | none => ds1
                (.ok ds2,
                  [NowCall.listCall app, NowCall.findCall app,
                    NowCall.aliasesCall, NowCall.findCall (some item.deploymentId)])
            | none =>
              (.ok ds1,
                [NowCall.listCall app, NowCall.findCall app, NowCall.aliasesCall])
        else
          (.ok ds1, [NowCall.listCall app, NowCall.findCall app])
    else
      (.ok ds0, [NowCall.listCall app])

/-- The instance-expansion fan-out of lines 144-150: one
`now.listInstances uid` per deployment under `Promise.all`.  `Promise.all`
rejects as soon as any fetch rejects; which rejection wins is a race, so it
is determinised here as the earliest in array order.  On overall success
every deployment gets its `instances` field set. -/
def expandInstances (env : Env) : List Deployment → Except TransportError (List Deployment)
  | [] => .ok []
  | d :: rest =>
    match env.instancesResult d.uid, expandInstances env rest with
    | .error e, _ => .error e
    | .ok _, .error e => .error e
    | .ok is, .ok rest2 => .ok ({ d with instances := some is } :: rest2)

/-- The network calls issued by the fan-out: `Promise.all` starts every
fetch, so one `instancesCall` per deployment is recorded even when some
fetches fail. -/
def instanceCalls (deps : List Deployment) : List NowCall :=
  deps.map fun d => NowCall.instancesCall d.uid

/-- One step of the grouping loop of lines 152-155:
`apps.set(dep.name, (apps.get(dep.name) || []).concat(dep))`.  A JavaScript
`Map` keeps a key at its first-insertion position, so an existing key keeps
its place and a new key is appended. -/
def insertDep (apps : List (String × List Deployment)) (d : Deployment) :
    List (String × List Deployment) :=
  match apps with
  | [] => [(d.name, [d])]
  | (n, ds) :: rest =>
    if n = d.name then (n, ds ++ [d]) :: rest
    else (n, ds) :: insertDep rest d

/-- The `apps` map of lines 152-155 as an insertion-ordered association
list. -/
def groupByName (deployments : List Deployment) : List (String × List Deployment) :=
  deployments.foldl insertDep []

/-- One element of the two-element `Map` entry array `[name, deps]` that the
hint-scan loop of lines 174-183 iterates with `app.find(...)`: the loop
variable `app` is a Map entry, not a deployment list, so `find` scans the
entry pair itself. -/
inductive EntryElem where
  | nameElem (s : String)
  | depsElem (ds : List Deployment)
deriving DecidableEq

/-- JavaScript property access `depl.scale` on an element of the entry
array: a string and an array both lack a `scale` property, so the access
yields `undefined` in both cases. -/
def EntryElem.scaleProp : EntryElem → Option Scale
  | .nameElem _ => none
  | .depsElem _ => none

/-- The scan predicate of line 177-179,
`depl => depl.scale && depl.scale.current > 1`, evaluated on an entry
element (truthiness of the conjunction). -/
def bigScalePred (e : EntryElem) : Bool :=
  match e.scaleProp with
  | some sc => decide (sc.current > 1)
  | none => false

/-- The per-entry condition of lines 175-179:
`app[1].length > 5 || app.find(depl => depl.scale && depl.scale.current > 1)`
(truthiness of the `find` result on the two-element entry array). -/
def entryShowInfo (name : String) (deps : List Deployment) : Bool :=
  decide (deps.length > 5) ||
    ([EntryElem.nameElem name, EntryElem.depsElem deps].find? bigScalePred).isSome

/-- The `for (const app of apps)` scan of lines 172-183: the flag is
reassigned on every entry and the loop breaks at the first truthy value, so
the final value is true exactly when some entry satisfies `entryShowInfo`. -/
def scanShowAllInfo : List (String × List Deployment) → Bool
  | [] => false
  | (n, ds) :: rest => if entryShowInfo n ds then true else scanShowAllInfo rest

/-- The JavaScript expression `(i.url && i.url.length) || 0` of line 161: an
empty string is falsy and contributes 0, which is also its length. -/
def jsUrlLen (d : Deployment) : Nat :=
  if d.url = "" then 0 else d.url.length

/-- The shared URL column width of lines 159-162:
`deployments.reduce((acc, i) => Math.max(acc, (i.url && i.url.length) || 0), 0) + 5`. -/
def urlLength (deployments : List Deployment) : Nat :=
  deployments.foldl (fun acc d => max acc (jsUrlLen d)) 0 + 5

/-- The group header suffix of lines 198-201:
`'(' + listedDeployments.length + ' of ' + deps.length + ' total)'`. -/
def groupHeaderText (k n : Nat) : String :=
  "(" ++ toString k ++ " of " ++ toString n ++ " total)"

/-- One rendered application section: the group name, the header suffix, and
the deployments whose rows are printed, in print order. -/
structure GroupSection where
  name : String
  header : String
  rows : List Deployment
deriving DecidableEq

/-- The per-group rendering of lines 195-202: with `--all` every member is
listed, otherwise `deps.slice(0, 5)` caps the preview at five rows. -/
def mkSection (allFlag : Bool) (entry : String × List Deployment) : GroupSection :=
  let listed := if allFlag then entry.2 else entry.2.take 5
  { name := entry.1
    header := groupHeaderText listed.length entry.2.length
    rows := listed }

/-- The report the presenter emits, with fields in emission order: the
summary line's deployment count (line 164-170), whether the expansion hint
of lines 185-191 is printed (at most once, before any group output), the
shared URL column width, and the group sections in aggregator order. -/
structure Report where
  summaryCount : Nat
  hint : Bool
  urlColumnWidth : Nat
  groups : List GroupSection
deriving DecidableEq

/-- Lines 152-214 after a successful resolution and expansion: group, sort,
compute the shared width, decide the hint (over the unsorted `apps` map,
line 174), and render every section. -/
def buildReport (env : Env) (allFlag : Bool) (deployments : List Deployment) : Report :=
  let apps := groupByName deployments
  { summaryCount := deployments.length
    hint := !allFlag && scanShowAllInfo apps
    urlColumnWidth := urlLength deployments
    groups := (env.sortGroups apps).map (mkSection allFlag) }

/-- How one invocation of the command terminates.  `helpExit` —
Modelled from the spec: the `exit` utility (repository code not under
`src/`) terminates the process with the given status, here 0 after printing
usage.  `usageExit` is the `--all`-without-app rejection of lines 105-108
(`process.exit(1)`).  `listErrorExit` and `unknownErrorExit` are the two
non-zero fatal-error paths described at `ResolveFailure`; `unknownErrorExit`
also covers a `Promise.all` rejection escaping `list`.  `nullCrashExit` is
the `TypeError` thrown when `deployments` is still `null`/`undefined` after
all three tiers (iterating a non-array), caught by `main`, exit 1.
`report` is normal termination with the rendered report. -/
inductive Outcome where
  | helpExit
  | usageExit
  | listErrorExit (e : TransportError)
  | unknownErrorExit (e : TransportError)
  | nullCrashExit
  | report (r : Report)
deriving DecidableEq

/-- The `list` function of lines 101-262 (with `main`'s catch folded in),
returning the outcome and the trace of network-client calls. -/
def listCommand (env : Env) (allFlag : Bool) (app : Option String) :
    Outcome × List NowCall :=
  if allFlag && appFalsy app then (Outcome.usageExit, [])
  else
    match resolveDeployments env app with
    | (.error (.tier1 e), tr) => (Outcome.listErrorExit e, tr)
    | (.error (.escaped e), tr) => (Outcome.unknownErrorExit e, tr)
    | (.ok none, tr) => (Outcome.nullCrashExit, tr)
    | (.ok (some deps), tr) =>
      if allFlag then
        match expandInstances env deps with
        | .error e => (Outcome.unknownErrorExit e, tr ++ instanceCalls deps)
        | .ok deps2 =>
          (Outcome.report (buildReport env allFlag deps2), tr ++ instanceCalls deps)
      else
        (Outcome.report (buildReport env allFlag deps), tr)

/-- The entry point `main` of lines 61-90, restricted to what the spec
covers: the help check of lines 76-79 (`argv.help || app === 'help'` prints
usage and exits 0 before any credential or network work), then the `list`
call. -/
def mainCommand (env : Env) (helpFlag allFlag : Bool) (app : Option String) :
    Outcome × List NowCall :=
  if helpFlag || app == some "help" then (Outcome.helpExit, [])
  else listCommand env allFlag app

/-- The expansion-hint condition in the specification's words (spec sections
4.3 and 8): expansion was not requested, and some group has more than five
members or some deployment in some group has `scale.current` greater
than 1.  Stated over the same grouped data the code scans, for comparison
with the code's `scanShowAllInfo`. -/
def specShouldShowHint (allFlag : Bool) (apps : List (String × List Deployment)) : Bool :=
  !allFlag && apps.any fun entry =>
    decide (entry.2.length > 5) ||
      entry.2.any fun d =>
        match d.scale with
        | some sc => decide (sc.current > 1)
        | none => false

/-- A collaborator environment in which every tier responds with an empty
success: the listing is an empty array, lookups find nothing, the alias
table is empty, instance fetches succeed with no instances, and the group
sort is the identity. -/
def envAllEmpty : Env where
  listResult := fun _ => .ok (some [])
  findResult := fun _ => .ok none
  aliasesResult := .ok []
  instancesResult := fun _ => .ok []
  sortGroups := fun gs => gs
  sortGroups_perm := fun gs => List.Perm.refl gs

/-- An environment whose `now.list` call rejects with a transport error. -/
def envErrList : Env where
  listResult := fun _ => .error { code := 3 }
  findResult := fun _ => .ok none
  aliasesResult := .ok []
  instancesResult := fun _ => .ok []
  sortGroups := fun gs => gs
  sortGroups_perm := fun gs => List.Perm.refl gs

/-- Two deployments of the application `api`, used as concrete inputs. -/
def depC2a : Deployment := { uid := "u1", name := "api", url := "api.x.co" }

/-- Second concrete deployment of the application `api`. -/
def depC2b : Deployment := { uid := "u2", name := "api", url := "api2.x.co" }

/-- An environment that lists `depC2a` and `depC2b` and whose instance fetch
succeeds for `u1` but rejects for `u2`: exactly one failing fetch. -/
def envC2 : Env where
  listResult := fun _ => .ok (some [depC2a, depC2b])
  findResult := fun _ => .ok none
  aliasesResult := .ok []
  instancesResult := fun u =>
    if u == "u1" then .ok [{ url := "i1.x.co" }] else .error { code := 7 }
  sortGroups := fun gs => gs
  sortGroups_perm := fun gs => List.Perm.refl gs

/-- A deployment of `api` with three live instances (`scale.current = 3`). -/
def depC3a : Deployment :=
  { uid := "u1", name := "api", url := "api.x.co", scale := some { current := 3 } }

/-- A second deployment of `api` with three live instances. -/
def depC3b : Deployment :=
  { uid := "u2", name := "api", url := "api2.x.co", scale := some { current := 3 } }

/-- An environment listing two scaled-up deployments of one application with
no expansion-relevant group of more than five members. -/
def envC3 : Env where
  listResult := fun _ => .ok (some [depC3a, depC3b])
  findResult := fun _ => .ok none
  aliasesResult := .ok []
  instancesResult := fun _ => .ok []
  sortGroups := fun gs => gs
  sortGroups_perm := fun gs => List.Perm.refl gs

/-- The deployment an alias points at, used as a concrete input. -/
def depC7 : Deployment := { uid := "d123", name := "shop", url := "shop.x.co" }

/-- An alias record whose human name is `my-alias` and whose target is
`depC7`. -/
def aliasC7 : AliasRec := { uid := "au1", aliasField := "my-alias", deploymentId := "d123" }

/-- An environment where the listing and the direct lookup come back empty
but the alias table resolves `my-alias` to `depC7`. -/
def envC7 : Env where
  listResult := fun _ => .ok (some [])
  findResult := fun arg => if arg == some "d123" then .ok (some depC7) else .ok none
  aliasesResult := .ok [aliasC7]
  instancesResult := fun _ => .ok []
  sortGroups := fun gs => gs
  sortGroups_perm := fun gs => List.Perm.refl gs

/-- Seven deployments of one application, for the capped-preview example. -/
def deps7 : List Deployment :=
  [ { uid := "a1", name := "api", url := "a1.x.co" },
    { uid := "a2", name := "api", url := "a2.x.co" },
    { uid := "a3", name := "api", url := "a3.x.co" },
    { uid := "a4", name := "api", url := "a4.x.co" },
    { uid := "a5", name := "api", url := "a5.x.co" },
    { uid := "a6", name := "api", url := "a6.x.co" },
    { uid := "a7", name := "api", url := "a7.x.co" } ]

/-- A single deployment used to witness the shared-width bound. -/
def depW9 : Deployment := { uid := "u9", name := "web", url := "web.x.co" }

/-- The section the presenter renders for `depW9`. -/
def secW9 : GroupSection := mkSection false ("web", [depW9])

/-! ### Helper lemmas about the resolver -/

theorem resolve_t1_err (env : Env) (app : Option String) (e : TransportError)
    (h : env.listResult app = .error e) :
    resolveDeployments env app = (.error (.tier1 e), [NowCall.listCall app]) := by
  simp [resolveDeployments, h]

theorem resolve_t1_nonempty (env : Env) (app : Option String)
    (ds : Option (List Deployment))
    (h : env.listResult app = .ok ds) (hne : isEmptyDeployments ds = false) :
    resolveDeployments env app = (.ok ds, [NowCall.listCall app]) := by
  simp [resolveDeployments, h, hne]

theorem resolve_t2_err (env : Env) (app : Option String)
    (ds : Option (List Deployment)) (e : TransportError)
    (h1 : env.listResult app = .ok ds) (hemp : isEmptyDeployments ds = true)
    (hf : env.findResult app = .error e) :
    resolveDeployments env app
      = (.error (.escaped e), [NowCall.listCall app, NowCall.findCall app]) := by
  simp [resolveDeployments, h1, hemp, hf]

theorem resolve_t2_found (env : Env) (app : Option String)
    (ds : Option (List Deployment)) (d : Deployment)
    (h1 : env.listResult app = .ok ds) (hemp : isEmptyDeployments ds = true)
    (hf : env.findResult app = .ok (some d)) :
    resolveDeployments env app
      = (.ok (some [d]), [NowCall.listCall app, NowCall.findCall app]) := by
  have h2 : isEmptyDeployments (some [d]) = false := rfl
  simp [resolveDeployments, h1, hemp, hf, h2]

theorem resolve_t3_aliasErr (env : Env) (app : Option String)
    (ds : Option (List Deployment)) (e : TransportError)
    (h1 : env.listResult app = .ok ds) (hemp : isEmptyDeployments ds = true)
    (hf : env.findResult app = .ok none) (ha : env.aliasesResult = .error e) :
    resolveDeployments env app
      = (.error (.escaped e),
          [NowCall.listCall app, NowCall.findCall app, NowCall.aliasesCall]) := by
  simp [resolveDeployments, h1, hemp, hf, ha]

theorem resolve_t3_miss (env : Env) (app : Option String)
    (ds : Option (List Deployment)) (tbl : List AliasRec)
    (h1 : env.listResult app = .ok ds) (hemp : isEmptyDeployments ds = true)
    (hf : env.findResult app = .ok none) (ha : env.aliasesResult = .ok tbl)
    (ht : tbl.find? (aliasMatches app) = none) :
    resolveDeployments env app
      = (.ok ds, [NowCall.listCall app, NowCall.findCall app, NowCall.aliasesCall]) := by
  simp [resolveDeployments, h1, hemp, hf, ha, ht]

theorem resolve_t3_hit (env : Env) (app : Option String)
    (ds : Option (List Deployment)) (tbl : List AliasRec) (item : AliasRec)
    (m2 : Option Deployment)
    (h1 : env.listResult app = .ok ds) (hemp : isEmptyDeployments ds = true)
    (hf : env.findResult app = .ok none) (ha : env.aliasesResult = .ok tbl)
    (ht : tbl.find? (aliasMatches app) = some item)
    (hf2 : env.findResult (some item.deploymentId) = .ok m2) :
    resolveDeployments env app
      = (.ok (match m2 with | some d => some [d] | none => ds),
          [NowCall.listCall app, NowCall.findCall app, NowCall.aliasesCall,
            NowCall.findCall (some item.deploymentId)]) := by
  cases m2 <;> simp [resolveDeployments, h1, hemp, hf, ha, ht, hf2]

theorem resolve_t3_hitErr (env : Env) (app : Option String)
    (ds : Option (List Deployment)) (tbl : List AliasRec) (item : AliasRec)
    (e : TransportError)
    (h1 : env.listResult app = .ok ds) (hemp : isEmptyDeployments ds = true)
    (hf : env.findResult app = .ok none) (ha : env.aliasesResult = .ok tbl)
    (ht : tbl.find? (aliasMatches app) = some item)
    (hf2 : env.findResult (some item.deploymentId) = .error e) :
    resolveDeployments env app
      = (.error (.escaped e),
          [NowCall.listCall app, NowCall.findCall app, NowCall.aliasesCall,
            NowCall.findCall (some item.deploymentId)]) := by
  simp [resolveDeployments, h1, hemp, hf, ha, ht, hf2]

/-- Whenever tier 1 succeeds with an empty result, the trace starts with the
tier-1 call followed by the tier-2 call, whatever happens afterwards. -/
theorem resolve_trace_tail (env : Env) (app : Option String)
    (ds : Option (List Deployment))
    (h1 : env.listResult app = .ok ds) (hemp : isEmptyDeployments ds = true) :
    ∃ rest, (resolveDeployments env app).2
      = NowCall.listCall app :: NowCall.findCall app :: rest := by
  rcases hf : env.findResult app with e | m
  · exact ⟨[], by rw [resolve_t2_err env app ds e h1 hemp hf]⟩
  · rcases m with _ | d
    · rcases ha : env.aliasesResult with e | tbl
      · exact ⟨[NowCall.aliasesCall], by rw [resolve_t3_aliasErr env app ds e h1 hemp hf ha]⟩
      · rcases ht : tbl.find? (aliasMatches app) with _ | item
        · exact ⟨[NowCall.aliasesCall], by rw [resolve_t3_miss env app ds tbl h1 hemp hf ha ht]⟩
        · rcases hf2 : env.findResult (some item.deploymentId) with e | m2
          · exact ⟨[NowCall.aliasesCall, NowCall.findCall (some item.deploymentId)],
              by rw [resolve_t3_hitErr env app ds tbl item e h1 hemp hf ha ht hf2]⟩
          · exact ⟨[NowCall.aliasesCall, NowCall.findCall (some item.deploymentId)],
              by rw [resolve_t3_hit env app ds tbl item m2 h1 hemp hf ha ht hf2]⟩
    · exact ⟨[], by rw [resolve_t2_found env app ds d h1 hemp hf]⟩

/-! ### Helper lemmas about aggregation and presentation -/

theorem buildReport_nil (env : Env) (allFlag : Bool) :
    buildReport env allFlag []
      = { summaryCount := 0, hint := false, urlColumnWidth := 5, groups := [] } := by
  have h : env.sortGroups [] = [] := (env.sortGroups_perm []).eq_nil
  simp [buildReport, groupByName, urlLength, scanShowAllInfo, h]

theorem expandInstances_error_of_mem (env : Env) (ds : List Deployment)
    (d : Deployment) (hd : d ∈ ds) (e : TransportError)
    (he : env.instancesResult d.uid = .error e) :
    ∃ e2, expandInstances env ds = .error e2 := by
  induction ds with
  | nil => cases hd
  | cons x t ih =>
    rcases List.mem_cons.mp hd with h | h
    · subst h
      exact ⟨e, by simp [expandInstances, he]⟩
    · rcases hx : env.instancesResult x.uid with e3 | is
      · exact ⟨e3, by simp [expandInstances, hx]⟩
      · rcases ih h with ⟨e2, he2⟩
        exact ⟨e2, by simp [expandInstances, hx, he2]⟩

theorem le_foldl_maxUrl (l : List Deployment) (a b : Nat) (h : a ≤ b) :
    a ≤ l.foldl (fun acc d => max acc (jsUrlLen d)) b := by
  induction l generalizing b with
  | nil => simpa using h
  | cons x t ih =>
    rw [List.foldl_cons]
    exact ih _ (le_trans h (le_max_left _ _))

theorem jsUrlLen_le_foldl (l : List Deployment) (d : Deployment) (hd : d ∈ l) (a : Nat) :
    jsUrlLen d ≤ l.foldl (fun acc x => max acc (jsUrlLen x)) a := by
  induction l generalizing a with
  | nil => cases hd
  | cons x t ih =>
    rw [List.foldl_cons]
    rcases List.mem_cons.mp hd with h | h
    · subst h
      exact le_foldl_maxUrl t _ _ (le_max_right _ _)
    · exact ih h _

theorem jsUrlLen_eq (d : Deployment) : jsUrlLen d = d.url.length := by
  by_cases h : d.url = ""
  · rw [jsUrlLen, if_pos h, h]
    rfl
  · rw [jsUrlLen, if_neg h]

theorem urlLength_ge (l : List Deployment) (d : Deployment) (hd : d ∈ l) :
    d.url.length + 5 ≤ urlLength l := by
  have h := jsUrlLen_le_foldl l d hd 0
  rw [jsUrlLen_eq] at h
  exact Nat.add_le_add_right h 5

theorem mem_insertDep (acc : List (String × List Deployment)) (x d : Deployment)
    (entry : String × List Deployment) (hentry : entry ∈ insertDep acc x)
    (hd : d ∈ entry.2) : (∃ e0 ∈ acc, d ∈ e0.2) ∨ d = x := by
  induction acc with
  | nil =>
    simp only [insertDep, List.mem_singleton] at hentry
    subst hentry
    simp only [List.mem_singleton] at hd
    exact Or.inr hd
  | cons p rest ih =>
    rcases p with ⟨n, ds⟩
    by_cases hn : n = x.name
    · rw [insertDep, if_pos hn] at hentry
      rcases List.mem_cons.mp hentry with h | h
      · subst h
        rcases List.mem_append.mp hd with h2 | h2
        · exact Or.inl ⟨(n, ds), List.mem_cons_self _ _, h2⟩
        · simp only [List.mem_singleton] at h2
          exact Or.inr h2
      · exact Or.inl ⟨entry, List.mem_cons_of_mem _ h, hd⟩
    · rw [insertDep, if_neg hn] at hentry
      rcases List.mem_cons.mp hentry with h | h
      · subst h
        exact Or.inl ⟨(n, ds), List.mem_cons_self _ _, hd⟩
      · rcases ih h with h2 | h2
        · rcases h2 with ⟨e0, he0, hde0⟩
          exact Or.inl ⟨e0, List.mem_cons_of_mem _ he0, hde0⟩
        · exact Or.inr h2

theorem mem_foldl_insertDep (l : List Deployment)
    (acc : List (String × List Deployment)) (entry : String × List Deployment)
    (d : Deployment) (hentry : entry ∈ l.foldl insertDep acc) (hd : d ∈ entry.2) :
    (∃ e0 ∈ acc, d ∈ e0.2) ∨ d ∈ l := by
  induction l generalizing acc with
  | nil =>
    rw [List.foldl_nil] at hentry
    exact Or.inl ⟨entry, hentry, hd⟩
  | cons x t ih =>
    rw [List.foldl_cons] at hentry
    rcases ih (insertDep acc x) hentry with h | h
    · rcases h with ⟨e0, he0, hde0⟩
      rcases mem_insertDep acc x d e0 he0 hde0 with h2 | h2
      · exact Or.inl h2
      · subst h2
        exact Or.inr (List.mem_cons_self _ _)
    · exact Or.inr (List.mem_cons_of_mem _ h)

theorem mem_of_groupByName (l : List Deployment) (entry : String × List Deployment)
    (d : Deployment) (hentry : entry ∈ groupByName l) (hd : d ∈ entry.2) : d ∈ l := by
  rcases mem_foldl_insertDep l [] entry d hentry hd with h | h
  · rcases h with ⟨e0, he0, _⟩
    exact absurd he0 (List.not_mem_nil e0)
  · exact h

/-! ### The claims -/

/-- Claim C1: tier 2 (`now.findDeployment app`) and tier 3 (the alias scan)
are attempted only when the previous tier completed successfully with an
empty result in the sense of the source's own emptiness test
(`isEmptyDeployments`: a null response or a zero-length array); whenever a
tier's collaborator call rejects with a transport error, resolution returns
that error immediately and no later tier's call appears in the trace. -/
theorem c1_resolver_tier_gating (env : Env) (app : Option String) :
    (∀ e, env.listResult app = .error e →
        resolveDeployments env app = (.error (.tier1 e), [NowCall.listCall app]))
  ∧ (∀ arg, NowCall.findCall arg ∈ (resolveDeployments env app).2 →
        ∃ ds, env.listResult app = .ok ds ∧ isEmptyDeployments ds = true)
  ∧ (NowCall.aliasesCall ∈ (resolveDeployments env app).2 →
        ∃ ds, env.listResult app = .ok ds ∧ isEmptyDeployments ds = true
          ∧ env.findResult app = .ok none)
  ∧ (∀ ds e, env.listResult app = .ok ds → isEmptyDeployments ds = true →
        env.findResult app = .error e →
        resolveDeployments env app
          = (.error (.escaped e), [NowCall.listCall app, NowCall.findCall app]))
  ∧ (∀ ds e, env.listResult app = .ok ds → isEmptyDeployments ds = true →
        env.findResult app = .ok none → env.aliasesResult = .error e →
        resolveDeployments env app
          = (.error (.escaped e),
              [NowCall.listCall app, NowCall.findCall app, NowCall.aliasesCall]))
  ∧ (∀ ds e tbl item, env.listResult app = .ok ds → isEmptyDeployments ds = true →
        env.findResult app = .ok none → env.aliasesResult = .ok tbl →
        tbl.find? (aliasMatches app) = some item →
        env.findResult (some item.deploymentId) = .error e →
        resolveDeployments env app
          = (.error (.escaped e),
              [NowCall.listCall app, NowCall.findCall app, NowCall.aliasesCall,
                NowCall.findCall (some item.deploymentId)])) := by
  refine ⟨?_, ?_, ?_, ?_, ?_, ?_⟩
  · intro e he
    exact resolve_t1_err env app e he
  · intro arg hmem
    rcases hls : env.listResult app with e | ds
    · rw [resolve_t1_err env app e hls] at hmem
      simp at hmem
    · by_cases hemp : isEmptyDeployments ds = true
      · exact ⟨ds, rfl, hemp⟩
      · rw [resolve_t1_nonempty env app ds hls (Bool.not_eq_true _ ▸ hemp)] at hmem
        simp at hmem
  · intro hmem
    rcases hls : env.listResult app with e | ds
    · rw [resolve_t1_err env app e hls] at hmem
      simp at hmem
    · by_cases hemp : isEmptyDeployments ds = true
      · rcases hf : env.findResult app with e | m
        · rw [resolve_t2_err env app ds e hls hemp hf] at hmem
          simp at hmem
        · rcases m with _ | d
          · exact ⟨ds, rfl, hemp, rfl⟩
          · rw [resolve_t2_found env app ds d hls hemp hf] at hmem
            simp at hmem
      · rw [resolve_t1_nonempty env app ds hls (Bool.not_eq_true _ ▸ hemp)] at hmem
        simp at hmem
  · intro ds e h1 hemp hf
    exact resolve_t2_err env app ds e h1 hemp hf
  · intro ds e h1 hemp hf ha
    exact resolve_t3_aliasErr env app ds e h1 hemp hf ha
  · intro ds e tbl item h1 hemp hf ha ht hf2
    exact resolve_t3_hitErr env app ds tbl item e h1 hemp hf ha ht hf2

/-- Claim C1 witness: in an environment whose listing call rejects with
error code 3, resolution aborts at tier 1 with exactly one network call. -/
theorem c1_resolver_tier_gating_witness :
    resolveDeployments envErrList (some "x")
      = (.error (.tier1 { code := 3 }), [NowCall.listCall (some "x")]) :=
  (c1_resolver_tier_gating envErrList (some "x")).1 { code := 3 } rfl

/-- Claim C4 counterexample: with the target omitted (`none`) and an empty
tier-1 listing, the command does call `now.findDeployment` (tier 2) and
`now.listAliases` (tier 3), so tier 1 is not terminal for an omitted
target. -/
theorem c4_counterexample :
    (resolveDeployments envAllEmpty none).2
      = [NowCall.listCall none, NowCall.findCall none, NowCall.aliasesCall] := rfl

/-- Claim C4 (amended): when the target is omitted, tier 1 is terminal only
when its listing is non-empty; when the listing is empty the resolver falls
through to tier 2 (and onwards) exactly as for a named target, passing the
undefined target along. -/
theorem c4_omitted_target (env : Env) :
    (∀ ds, env.listResult none = .ok ds → isEmptyDeployments ds = false →
        resolveDeployments env none = (.ok ds, [NowCall.listCall none]))
  ∧ (∀ ds, env.listResult none = .ok ds → isEmptyDeployments ds = true →
        NowCall.findCall none ∈ (resolveDeployments env none).2) := by
  constructor
  · intro ds h hne
    exact resolve_t1_nonempty env none ds h hne
  · intro ds h hemp
    rcases resolve_trace_tail env none ds h hemp with ⟨rest, hrest⟩
    rw [hrest]
    simp

/-- Claim C4 witness: a non-empty listing with the target omitted resolves
terminally at tier 1, and an empty listing with the target omitted reaches
tier 2. -/
theorem c4_omitted_target_witness :
    resolveDeployments envC3 none = (.ok (some [depC3a, depC3b]), [NowCall.listCall none])
  ∧ NowCall.findCall none ∈ (resolveDeployments envAllEmpty none).2 :=
  ⟨(c4_omitted_target envC3).1 (some [depC3a, depC3b]) rfl rfl,
    (c4_omitted_target envAllEmpty).2 (some []) rfl rfl⟩

/-- Claim C5: invoking with the expansion flag and a falsy (absent or empty)
app argument is rejected before any collaborator call: the call trace is
empty and the outcome is the usage-error exit of lines 105-108, which
terminates the process with status 1. -/
theorem c5_usage_error (env : Env) (app : Option String)
    (hfalsy : appFalsy app = true) :
    listCommand env true app = (Outcome.usageExit, []) := by
  simp [listCommand, hfalsy]

/-- Claim C5 witness: `--all` with no positional argument. -/
theorem c5_usage_error_witness :
    appFalsy none = true ∧ listCommand envAllEmpty true none = (Outcome.usageExit, []) :=
  ⟨rfl, c5_usage_error envAllEmpty none rfl⟩

/-- Claim C7: when tiers 1 and 2 are empty, the alias table's first entry
matching the target (by `uid` or `alias`) exists, and the lookup of that
entry's `deploymentId` finds a deployment, resolution yields exactly the
one-element list holding that deployment. -/
theorem c7_alias_indirection (env : Env) (app : Option String)
    (ds : Option (List Deployment)) (tbl : List AliasRec) (item : AliasRec)
    (d : Deployment)
    (h1 : env.listResult app = .ok ds) (hemp : isEmptyDeployments ds = true)
    (h2 : env.findResult app = .ok none)
    (h3 : env.aliasesResult = .ok tbl)
    (h4 : tbl.find? (aliasMatches app) = some item)
    (h5 : env.findResult (some item.deploymentId) = .ok (some d)) :
    (resolveDeployments env app).1 = .ok (some [d]) := by
  rw [resolve_t3_hit env app ds tbl item (some d) h1 hemp h2 h3 h4 h5]

/-- Claim C7 witness: the target `my-alias` matches `aliasC7` and resolves
to the one-element list holding `depC7`. -/
theorem c7_alias_indirection_witness :
    (resolveDeployments envC7 (some "my-alias")).1 = .ok (some [depC7]) :=
  c7_alias_indirection envC7 (some "my-alias") (some []) [aliasC7] aliasC7 depC7
    rfl rfl rfl rfl rfl rfl

/-- Claim C10: a positional argument literally equal to `help` makes `main`
print usage and exit with status 0 before any resolution or network call
(empty trace), for any environment and flag combination — so an application
named `help` can never be listed through the positional argument. -/
theorem c10_help_literal (env : Env) (helpFlag allFlag : Bool) :
    mainCommand env helpFlag allFlag (some "help") = (Outcome.helpExit, []) := by
  simp [mainCommand]

/-- Claim C2 counterexample: in `envC2` exactly one of the two instance
fetches fails, yet the whole command aborts with that error instead of
producing a report — the `Promise.all` of lines 145-149 has no per-item
isolation.  Both fetches are still issued (the trace holds one
`instancesCall` per deployment). -/
theorem c2_counterexample :
    envC2.instancesResult "u1" = .ok [{ url := "i1.x.co" }]
  ∧ envC2.instancesResult "u2" = .error { code := 7 }
  ∧ listCommand envC2 true (some "api")
      = (Outcome.unknownErrorExit { code := 7 },
          [NowCall.listCall (some "api"), NowCall.instancesCall "u1",
            NowCall.instancesCall "u2"]) :=
  ⟨rfl, rfl, rfl⟩

/-- Claim C2 (amended): when expansion is requested, one instance fetch is
issued per resolved deployment (all of them appear in the trace), but the
failure of any single fetch is not isolated: the `Promise.all` rejection
escapes `list`, the command terminates through the unknown-error exit
(non-zero status) and no report is produced. -/
theorem c2_instance_fetch_failure (env : Env) (app : Option String)
    (ds : List Deployment) (tr : List NowCall)
    (hres : resolveDeployments env app = (.ok (some ds), tr))
    (hguard : appFalsy app = false)
    (d : Deployment) (hd : d ∈ ds) (e : TransportError)
    (he : env.instancesResult d.uid = .error e) :
    ∃ e2, listCommand env true app
      = (Outcome.unknownErrorExit e2, tr ++ instanceCalls ds) := by
  rcases expandInstances_error_of_mem env ds d hd e he with ⟨e2, he2⟩
  exact ⟨e2, by simp [listCommand, hguard, hres, he2]⟩

/-- Claim C2 witness: the failing fetch of `envC2` aborts the command after
both fetches were issued. -/
theorem c2_instance_fetch_failure_witness :
    ∃ e2, listCommand envC2 true (some "api")
      = (Outcome.unknownErrorExit e2,
          [NowCall.listCall (some "api")] ++ instanceCalls [depC2a, depC2b]) :=
  c2_instance_fetch_failure envC2 (some "api") [depC2a, depC2b]
    [NowCall.listCall (some "api")] rfl rfl depC2b (by simp) { code := 7 } rfl

/-- Claim C3 is a code bug: two deployments of one application, each with
`scale.current = 3` and a group of fewer than six members, make the
spec-side hint condition true, yet the command renders the report with the
hint suppressed.  The scan loop of lines 174-183 calls `find` on the Map
entry pair `[name, deps]` rather than on the deployments, so its
scale-based clause can never fire. -/
theorem c3_hint_scale_dead :
    (listCommand envC3 false (some "api")).1
      = Outcome.report
          { summaryCount := 2
            hint := false
            urlColumnWidth := 14
            groups :=
              [ { name := "api", header := "(2 of 2 total)",
                  rows := [depC3a, depC3b] } ] }
  ∧ specShouldShowHint false (groupByName [depC3a, depC3b]) = true :=
  ⟨rfl, rfl⟩

/-- Claim C6: when every tier yields an empty success (empty listing, null
lookups, any alias table), the command does not error: it terminates
normally with a report whose summary count is 0 and which has no group
sections (and no hint), for any expansion flag that passes the usage
guard. -/
theorem c6_empty_is_soft (env : Env) (allFlag : Bool) (app : Option String)
    (tbl : List AliasRec)
    (hguard : (allFlag && appFalsy app) = false)
    (h1 : env.listResult app = .ok (some []))
    (h2 : ∀ x, env.findResult x = .ok none)
    (h3 : env.aliasesResult = .ok tbl) :
    (listCommand env allFlag app).1
      = Outcome.report
          { summaryCount := 0, hint := false, urlColumnWidth := 5, groups := [] } := by
  have hemp : isEmptyDeployments (some []) = true := rfl
  rcases hfind : tbl.find? (aliasMatches app) with _ | item
  · have hres := resolve_t3_miss env app (some []) tbl h1 hemp (h2 app) h3 hfind
    cases allFlag
    · simp [listCommand, hguard, hres, buildReport_nil]
    · simp [listCommand, hguard, hres, buildReport_nil, expandInstances]
  · have hres := resolve_t3_hit env app (some []) tbl item none h1 hemp (h2 app) h3
      hfind (h2 (some item.deploymentId))
    cases allFlag
    · simp [listCommand, hguard, hres, buildReport_nil]
    · simp [listCommand, hguard, hres, buildReport_nil, expandInstances]

/-- Claim C6 witness: a target nothing resolves, in the all-empty
environment, still produces the zero-deployment report. -/
theorem c6_empty_is_soft_witness :
    (listCommand envAllEmpty false (some "nope")).1
      = Outcome.report
          { summaryCount := 0, hint := false, urlColumnWidth := 5, groups := [] } :=
  c6_empty_is_soft envAllEmpty false (some "nope") [] rfl rfl (fun _ => rfl) rfl

/-- Claim C8: a group of size `n` renders `n` rows under expansion and
`min n 5` rows otherwise, and its header suffix is `(k of n total)` with
`k` the number of rendered rows; in particular a 7-member group without
expansion renders 5 rows under the header `(5 of 7 total)`. -/
theorem c8_group_preview (allFlag : Bool) (name : String) (deps : List Deployment) :
    (mkSection allFlag (name, deps)).rows.length
        = (if allFlag then deps.length else min deps.length 5)
  ∧ (mkSection allFlag (name, deps)).header
        = groupHeaderText (if allFlag then deps.length else min deps.length 5) deps.length
  ∧ (allFlag = false → deps.length = 7 →
      (mkSection allFlag (name, deps)).rows.length = 5
        ∧ (mkSection allFlag (name, deps)).header = "(5 of 7 total)") := by
  have hlen : (mkSection allFlag (name, deps)).rows.length
      = (if allFlag then deps.length else min deps.length 5) := by
    cases allFlag
    · show (deps.take 5).length = min deps.length 5
      rw [List.length_take, Nat.min_comm]
    · rfl
  have hhead : (mkSection allFlag (name, deps)).header
      = groupHeaderText (mkSection allFlag (name, deps)).rows.length deps.length := rfl
  refine ⟨hlen, by rw [hhead, hlen], ?_⟩
  intro ha h7
  subst ha
  rw [if_neg (by simp)] at hlen
  rw [h7] at hlen
  refine ⟨hlen, ?_⟩
  rw [hhead, hlen, h7]
  rfl

/-- Claim C8 witness: the seven-deployment group `deps7` without expansion
renders exactly five rows under the header `(5 of 7 total)`. -/
theorem c8_group_preview_witness :
    (mkSection false ("api", deps7)).rows.length = 5
  ∧ (mkSection false ("api", deps7)).header = "(5 of 7 total)" :=
  (c8_group_preview false "api" deps7).2.2 rfl rfl

/-- Claim C9: the single `urlColumnWidth` of the report is computed over all
resolved deployments, so for every rendered row of every group it is at
least the row's URL length plus the fixed padding constant 5. -/
theorem c9_url_column_width (env : Env) (allFlag : Bool)
    (deployments : List Deployment) (g : GroupSection)
    (hg : g ∈ (buildReport env allFlag deployments).groups)
    (d : Deployment) (hd : d ∈ g.rows) :
    d.url.length + 5 ≤ (buildReport env allFlag deployments).urlColumnWidth := by
  have hg2 : g ∈ (env.sortGroups (groupByName deployments)).map (mkSection allFlag) := hg
  rcases List.mem_map.mp hg2 with ⟨entry, hentry, hgeq⟩
  have hentry2 : entry ∈ groupByName deployments :=
    (env.sortGroups_perm (groupByName deployments)).subset hentry
  subst hgeq
  have hd2 : d ∈ entry.2 := by
    cases allFlag
    · exact (List.take_sublist 5 entry.2).subset hd
    · exact hd
  exact urlLength_ge deployments d (mem_of_groupByName deployments entry d hentry2 hd2)

/-- Claim C9 witness: the one-deployment report's shared width bounds the
URL length of its single rendered row. -/
theorem c9_url_column_width_witness :
    secW9 ∈ (buildReport envAllEmpty false [depW9]).groups
  ∧ depW9 ∈ secW9.rows
  ∧ depW9.url.length + 5 ≤ (buildReport envAllEmpty false [depW9]).urlColumnWidth :=
  ⟨by decide, by decide,
    c9_url_column_width envAllEmpty false [depW9] secW9 (by decide) depW9 (by decide)⟩

end NowLs
